import Mathlib

set_option maxRecDepth 100000

/-!
# Verification of the BLE accelerometer datalogger's file-receive core

Shallow embedding of the stream-demultiplexing / file-transfer protocol of
`acc_datalogger.py`: the `FileReceiver` class, the packet framing and
ACK/NACK logic of `MainWindow._handle_notification`, the idle-mode line
reassembly and control-directive detection, the watchdog timer
(`QTimer`, interval 200 ms, repeating), `MainWindow.on_rx_timeout`, the
console append paths and `BLEWorker.disconnect`.

Conventions of the embedding:
* Byte chunks and decoded text are `List Nat` (code points; for ASCII input
  `bytes.decode(errors="replace")` is the identity on codes, and all inputs
  used in the theorems below are ASCII).
* Outbound commands, `store` calls (`file.write`), console appends and a
  raised-exception flag are collected in an `Out` record so that the effect
  of each handler is observable.
* Persistence (`file.write`) is the external collaborator; a Boolean
  `storeOk` oracle says whether the write succeeds or raises `OSError`.
* The Qt timer is modelled at millisecond granularity: `tick1` advances
  time by 1 ms; a running (non-singleShot) `QTimer` fires whenever its
  countdown elapses and then rearms itself with the same interval.
-/

/-- Constant `FILE_PACKET_SIZE = 1024` (acc_datalogger.py line 13). -/
def FILE_PACKET_SIZE : Nat := 1024

/-- Interval from `self.rx_watchdog.setInterval(200)` (line 279). -/
def RX_WATCHDOG_INTERVAL : Nat := 200

/-- State of the `FileReceiver` class (lines 23-57): `receiving` flag,
whether `self.file` is a live handle, `rx_bytes`, `file_size` (a Python
int, possibly negative since `int()` parses signs), and the sanitized
file name passed to `open`. -/
structure FileReceiver where
  receiving : Bool
  fileOpen : Bool
  rx_bytes : Nat
  file_size : Int
  fname : List Nat
deriving DecidableEq

/-- State of the `QTimer`: whether the timer is running and the milliseconds left
until the next `timeout` emission. The source never sets `singleShot`, so
the timer is repeating. -/
structure Watchdog where
  active : Bool
  remaining : Nat
deriving DecidableEq

/-- Model of `QTimer.start()`: (re)starts the countdown from the configured
200 ms interval (line 347 `self.rx_watchdog.start()`). -/
def Watchdog.started : Watchdog :=
  { active := true, remaining := RX_WATCHDOG_INTERVAL }

/-- Console entries distinguish the raw appended lines from the formatted
f-string notices of the source (each constructor is one distinct
`console_deque.append` site, with the interpolated values as arguments). -/
inductive CEntry where
  /-- a completed text line appended verbatim (line 379) -/
  | line (s : List Nat)
  /-- the notice f"Started receiving {filename} ({filesize} bytes)\n" (line 375) -/
  | started (filename : List Nat) (size : Int)
  /-- the notice "File receive complete\n" (line 353) -/
  | complete
  /-- the diagnostic f"Error: received more than {FILE_PACKET_SIZE} bytes without ACK\n" (line 345) -/
  | overrun
  /-- the notice "File receive timeout: no data received for 1 second\n" (line 392) -/
  | timeout
  /-- the diagnostic f"File receive error: {e}\n" (line 356) -/
  | recvError
  /-- a transport log line routed through `_append_console` (line 299) -/
  | transportLog (s : String)
deriving DecidableEq

/-- Observable effects of one handler invocation: commands scheduled on the
transport, packets handed to persistence (`file.write`), console appends,
and whether an exception escaped the handler uncaught. -/
structure Out where
  sent : List String
  stored : List (List Nat)
  console : List CEntry
  raised : Bool
deriving DecidableEq

/-- No effects. -/
def Out.empty : Out := ⟨[], [], [], false⟩

/-- Sequencing of effects. -/
def Out.app (a b : Out) : Out :=
  ⟨a.sent ++ b.sent, a.stored ++ b.stored, a.console ++ b.console,
   a.raised || b.raised⟩

/-- The `MainWindow` state relevant to the core: the file receiver, the
packet accumulator `self.packet_bytes` / `self.packet_bytes_num`
(lines 274-275), the idle-mode line buffer `self.last_line` (line 238),
the watchdog timer, and whether `self.ble.client` is set. -/
structure MW where
  fr : FileReceiver
  packet_bytes : List Nat
  packet_bytes_num : Nat
  last_line : List Nat
  watchdog : Watchdog
  clientSome : Bool
deriving DecidableEq

/-- Model of `Path(filename).name`: strip any path components, keeping the part of
the name after the last slash (47). -/
def baseName (s : List Nat) : List Nat :=
  ((s.reverse.takeWhile (fun c => c ≠ 47)).reverse)

/-- Model of `FileReceiver.start_receiving` (lines 32-40): open the (sanitized)
file for writing, zero `rx_bytes`, record `file_size`, set `receiving`. -/
def FileReceiver.start_receiving (filename : List Nat) (file_size : Int) :
    FileReceiver :=
  { receiving := true, fileOpen := true, rx_bytes := 0,
    file_size := file_size, fname := baseName filename }

/-- Model of `FileReceiver.stop_receiving` (lines 42-46): close the file, clear
`receiving`. -/
def FileReceiver.stop_receiving (fr : FileReceiver) : FileReceiver :=
  { fr with fileOpen := false, receiving := false }

/-- Model of `FileReceiver.handle_data` (lines 48-57). `file.write(data)` is the
persistence collaborator; when it raises (`storeOk = false`) the exception
propagates to the caller, modelled by `none`; otherwise the packets passed
to `write` are returned alongside the updated state. -/
def FileReceiver.handle_data (fr : FileReceiver) (data : List Nat)
    (storeOk : Bool) : Option (FileReceiver × List (List Nat)) :=
  if fr.receiving && fr.fileOpen then
    if storeOk then
      let rx' := fr.rx_bytes + data.length
      let fr' := { fr with rx_bytes := rx' }
      if (rx' : Int) ≥ fr.file_size then some (fr'.stop_receiving, [data])
      else some (fr', [data])
    else none
  else some (fr, [])

/-- Receiving-mode branch of `MainWindow._handle_notification`
(lines 331-358): extend the packet accumulator; on a full packet or on
reaching the declared size schedule `FIL:ACK`, hand the packet to
persistence and clear the accumulator; past `FILE_PACKET_SIZE` without a
boundary log an overrun; restart the watchdog; if the receiver finished,
log the completion notice. A raised store error is caught at line 355 and
logged, skipping the clears and the watchdog restart. -/
def handleReceiving (st : MW) (data : List Nat) (storeOk : Bool) :
    MW × Out :=
  let pb := st.packet_bytes ++ data
  let n := st.packet_bytes_num + data.length
  if n = FILE_PACKET_SIZE ∨
      (st.fr.rx_bytes : Int) + (n : Int) ≥ st.fr.file_size then
    match st.fr.handle_data pb storeOk with
    | some (fr', stores) =>
        ({ st with fr := fr', packet_bytes := [], packet_bytes_num := 0,
                   watchdog := Watchdog.started },
         { sent := ["FIL:ACK\n"], stored := stores,
           console := if fr'.receiving then [] else [CEntry.complete],
           raised := false })
    | none =>
        ({ st with packet_bytes := pb, packet_bytes_num := n },
         { sent := ["FIL:ACK\n"], stored := [],
           console := [CEntry.recvError], raised := false })
  else if FILE_PACKET_SIZE < n then
    ({ st with packet_bytes := pb, packet_bytes_num := n,
               watchdog := Watchdog.started },
     { sent := [], stored := [], console := [CEntry.overrun],
       raised := false })
  else
    ({ st with packet_bytes := pb, packet_bytes_num := n,
               watchdog := Watchdog.started },
     Out.empty)

/-- Python line-break code points recognised by `str.splitlines`. -/
def pyBreaks : List Nat := [10, 11, 12, 13, 28, 29, 30, 133, 8232, 8233]

/-- Whether `str.splitlines` breaks at this code point. -/
def isBreakCh (c : Nat) : Bool := pyBreaks.contains c

/-- Python `str.splitlines(keepends=True)`, with `\r\n` kept as a single break.
`acc` holds the reversed current segment. -/
def splitlinesGo : List Nat → List Nat → List (List Nat)
  | acc, [] => if acc.isEmpty then [] else [acc.reverse]
  | acc, [c] =>
      if isBreakCh c then [acc.reverse ++ [c]] else [(c :: acc).reverse]
  | acc, c :: c2 :: rest =>
      if c = 13 && c2 = 10 then
        (acc.reverse ++ [13, 10]) :: splitlinesGo [] rest
      else if isBreakCh c then
        (acc.reverse ++ [c]) :: splitlinesGo [] (c2 :: rest)
      else splitlinesGo (c :: acc) (c2 :: rest)

/-- Model of `self.last_line.splitlines(keepends=True)` (line 365). -/
def splitlinesK (s : List Nat) : List (List Nat) := splitlinesGo [] s

/-- Test `line.endswith("\n")` (lines 378, 383). -/
def lastEndsNl (s : List Nat) : Bool := s.getLast? == some 10

/-- Code points of a string literal. -/
def strCodes (s : String) : List Nat := s.data.map Char.toNat

/-- The control sentinel marker, `"Sending file:"`. -/
def markerC : List Nat := strCodes ("Sending file:")

/-- Boolean prefix test on code lists. -/
def extFirst : List Nat → List Nat → Bool
  | [], _ => true
  | _ :: _, [] => false
  | a :: pa, b :: pb => a = b && extFirst pa pb

/-- Python's `pat in s` substring containment. -/
def hasSubstr (pat : List Nat) : List Nat → Bool
  | [] => extFirst pat []
  | c :: rest => extFirst pat (c :: rest) || hasSubstr pat rest

/-- Python `s.split(sep, 1)` when the separator occurs: the parts before and after
the first occurrence. `none` when the separator is absent (in the source
the subsequent tuple unpacking then raises `ValueError`). -/
def splitFirst (sep : Nat) : List Nat → Option (List Nat × List Nat)
  | [] => none
  | c :: rest =>
      if c = sep then some ([], rest)
      else (splitFirst sep rest).map (fun p => (c :: p.1, p.2))

/-- Python whitespace stripped by `str.strip`. -/
def isPySpace (c : Nat) : Bool :=
  c = 32 || c = 9 || c = 10 || c = 13 || c = 11 || c = 12

/-- Python `str.strip()`. -/
def pyStrip (s : List Nat) : List Nat :=
  ((s.dropWhile isPySpace).reverse.dropWhile isPySpace).reverse

/-- Digit groups accepted by Python `int`: `digit (underscore? digit)*`;
`lastDigit` records whether the previous character was a digit. -/
def pyDigitsGo : List Nat → Nat → Bool → Option Nat
  | [], acc, lastDigit => if lastDigit then some acc else none
  | c :: rest, acc, lastDigit =>
      if 48 ≤ c ∧ c ≤ 57 then pyDigitsGo rest (acc * 10 + (c - 48)) true
      else if c = 95 then
        (if lastDigit then pyDigitsGo rest acc false else none)
      else none

/-- Python `int(text)` for base-10 literals: optional surrounding whitespace,
optional sign, digits (with Python 3.6 underscore grouping). `none` means
`int` raises `ValueError`. -/
def pyIntParse (s : List Nat) : Option Int :=
  match pyStrip s with
  | 43 :: rest => (pyDigitsGo rest 0 false).map (fun n => (n : Int))
  | 45 :: rest => (pyDigitsGo rest 0 false).map (fun n => -(n : Int))
  | rest => (pyDigitsGo rest 0 false).map (fun n => (n : Int))

/-- Parse of a directive line (lines 369-371):
`_, payload = line.split(":", 1)`;
`filename, filesize_part = map(str.strip, payload.split(",", 1))`;
`filesize = int(filesize_part)`. `none` models the uncaught `ValueError`
raised when the comma is missing or the size is not an integer literal. -/
def parseDirective (line : List Nat) : Option (List Nat × Int) :=
  match splitFirst 58 line with
  | none => none
  | some (_, payload) =>
      match splitFirst 44 payload with
      | none => none
      | some (a, b) =>
          match pyIntParse (pyStrip b) with
          | none => none
          | some n => some (pyStrip a, n)

/-- The `for line in lines` loop of the idle branch (lines 366-381),
threading the receiver state, the `last_line` variable and the console
appends; a parse failure aborts the loop with `raised = true`, keeping the
mutations made so far (the exception is not caught anywhere). -/
def idleLoop (fr : FileReceiver) (ll : List Nat) :
    List (List Nat) → FileReceiver × List Nat × List CEntry × Bool
  | [] => (fr, ll, [], false)
  | line :: rest =>
      if hasSubstr markerC line && line.contains 10 then
        match parseDirective line with
        | none => (fr, ll, [], true)
        | some (fn, sz) =>
            let fr1 := FileReceiver.start_receiving fn sz
            let s := if lastEndsNl line then (ll, [CEntry.line line])
                     else (line, ([] : List CEntry))
            let r := idleLoop fr1 s.1 rest
            (r.1, r.2.1, CEntry.started fn sz :: (s.2 ++ r.2.2.1), r.2.2.2)
      else
        let s := if lastEndsNl line then (ll, [CEntry.line line])
                 else (line, ([] : List CEntry))
        let r := idleLoop fr s.1 rest
        (r.1, r.2.1, s.2 ++ r.2.2.1, r.2.2.2)

/-- Idle-mode branch of `_handle_notification` (lines 360-385): append the
decoded text to `self.last_line`; if a newline is present, run the line
loop over `splitlines(keepends=True)` and finally clear `last_line` when
it ends with a newline (the clear is skipped when the loop raised). -/
def handleIdle (st : MW) (text : List Nat) : MW × Out :=
  let ll := st.last_line ++ text
  if ll.contains 10 then
    let r := idleLoop st.fr ll (splitlinesK ll)
    if r.2.2.2 then
      ({ st with fr := r.1, last_line := r.2.1 },
       { sent := [], stored := [], console := r.2.2.1, raised := true })
    else
      ({ st with fr := r.1,
                 last_line := if lastEndsNl r.2.1 then [] else r.2.1 },
       { sent := [], stored := [], console := r.2.2.1, raised := false })
  else
    ({ st with last_line := ll }, Out.empty)

/-- Model of `MainWindow._handle_notification` (lines 324-385): dispatch on
`self.file_receiver.receiving`. -/
def handleNotification (st : MW) (data : List Nat) (storeOk : Bool) :
    MW × Out :=
  if st.fr.receiving then handleReceiving st data storeOk
  else handleIdle st data

/-- Model of `MainWindow.on_rx_timeout` (lines 387-393): while receiving, clear the
packet accumulator, schedule `FIL:NACK` and log the timeout diagnostic;
otherwise do nothing. -/
def on_rx_timeout (st : MW) : MW × Out :=
  if st.fr.receiving then
    ({ st with packet_bytes := [], packet_bytes_num := 0 },
     { sent := ["FIL:NACK\n"], stored := [],
       console := [CEntry.timeout], raised := false })
  else (st, Out.empty)

/-- One millisecond of wall time for the watchdog `QTimer`: a running
timer counts down; on elapse it emits `timeout` (connected to
`on_rx_timeout`, line 280) and, being a repeating timer, rearms itself
with the same 200 ms interval. -/
def tick1 (st : MW) : MW × Out :=
  if st.watchdog.active then
    if st.watchdog.remaining ≤ 1 then
      on_rx_timeout { st with watchdog := Watchdog.started }
    else
      ({ st with watchdog := { active := true,
                               remaining := st.watchdog.remaining - 1 } },
       Out.empty)
  else (st, Out.empty)

/-- Model of `MainWindow._append_console` (lines 319-322): transport log lines are
appended only while no transfer is in progress. -/
def appendConsoleGated (st : MW) (e : CEntry) : List CEntry :=
  if st.fr.receiving then [] else [e]

/-- Model of `BLEWorker.disconnect` (lines 116-127), reached from
`on_disconnect_clicked`: when a client exists, drop it and emit two log
lines through the gated console path; the file receiver, the packet
accumulator and the watchdog are not touched. -/
def disconnect (st : MW) : MW × Out :=
  if st.clientSome then
    ({ st with clientSome := false },
     { sent := [], stored := [],
       console := appendConsoleGated st (CEntry.transportLog ("Disconnecting ...\n"))
                  ++ appendConsoleGated st (CEntry.transportLog ("Disconnected\n")),
       raised := false })
  else (st, Out.empty)

/-- Events consumed by the core: a notification chunk (with the store
oracle's verdict for any write it triggers), one millisecond of time, and
a user disconnect. -/
inductive Event where
  | chunk (data : List Nat) (storeOk : Bool)
  | tick
  | disconnect
deriving DecidableEq

/-- Single event dispatch. -/
def stepEvent (st : MW) : Event → MW × Out
  | .chunk d ok => handleNotification st d ok
  | .tick => tick1 st
  | .disconnect => disconnect st

/-- Run a sequence of events, accumulating effects. -/
def runEvents (st : MW) : List Event → MW × Out
  | [] => (st, Out.empty)
  | e :: es =>
      let r := stepEvent st e
      let r2 := runEvents r.1 es
      (r2.1, Out.app r.2 r2.2)

/-- The `FileReceiver.__init__` state (lines 24-30). -/
def initFR : FileReceiver :=
  { receiving := false, fileOpen := false, rx_bytes := 0, file_size := 0,
    fname := [] }

/-- The state after `MainWindow.__init__` (lines 273-283): fresh receiver,
empty packet accumulator, empty `last_line`, a configured but not yet
started watchdog, no client. -/
def initMW : MW :=
  { fr := initFR, packet_bytes := [], packet_bytes_num := 0,
    last_line := [], watchdog := { active := false, remaining := 0 },
    clientSome := false }

/-- Process chunks while a transfer is in progress, stopping at the chunk
boundary where the receiver leaves `Receiving` — the per-transfer run used
by the packet-boundary statements (all stores succeed). -/
def runRecv (st : MW) : List (List Nat) → MW × Out
  | [] => (st, Out.empty)
  | c :: rest =>
      if st.fr.receiving then
        let r := handleNotification st c true
        let r2 := runRecv r.1 rest
        (r2.1, Out.app r.2 r2.2)
      else (st, Out.empty)


/-- A mid-transfer state used as a concrete test fixture: a transfer of
`size` declared bytes with `rx` bytes already stored, packet accumulator
`pb`, client presence `cs` and watchdog `w`. -/
def mkRecvMW (size : Int) (rx : Nat) (pb : List Nat) (cs : Bool)
    (w : Watchdog) : MW :=
  { fr := { receiving := true, fileOpen := true, rx_bytes := rx,
            file_size := size, fname := strCodes ("f.bin") },
    packet_bytes := pb, packet_bytes_num := pb.length, last_line := [],
    watchdog := w, clientSome := cs }

/-- The set of console entries the console-suppression claim allows while
a transfer is in progress: the started and completed notices. -/
def startedOrComplete : CEntry → Bool
  | .started _ _ => true
  | .complete => true
  | _ => false

/-- An idle-mode state with arbitrary leftover packet accumulator,
watchdog and client, and an empty line buffer. -/
def mkIdleMW (fr0 : FileReceiver) (pb : List Nat) (n : Nat) (w : Watchdog)
    (cs : Bool) : MW :=
  { fr := fr0, packet_bytes := pb, packet_bytes_num := n, last_line := [],
    watchdog := w, clientSome := cs }

/-- Reference splitter for newline-only text: the `\n`-terminated lines of
a string and the unterminated tail. Normal form used to reason about the
idle-mode reassembly on text whose only line-break character is `\n`. -/
def nlSplitGo : List Nat → List Nat → List (List Nat) × List Nat
  | acc, [] => ([], acc.reverse)
  | acc, c :: rest =>
      if c = 10 then
        ((acc.reverse ++ [10]) :: (nlSplitGo [] rest).1, (nlSplitGo [] rest).2)
      else nlSplitGo (c :: acc) rest

/-- Run `nlSplitGo` from an empty accumulator. -/
def nlSplit (s : List Nat) : List (List Nat) × List Nat := nlSplitGo [] s

/-- The raw lines appended to the console, in order. -/
def emittedLines : List CEntry → List (List Nat)
  | [] => []
  | .line s :: rest => s :: emittedLines rest
  | _ :: rest => emittedLines rest

/-- C1: while a transfer is open, a chunk that brings the packet count to
`FILE_PACKET_SIZE` or brings `bytes_received + packet_bytes_count` up to
the declared size causes exactly one `FIL:ACK`, one `store` of the packet
buffer, clearing of buffer and count, and — when `bytes_received` is then
at least the declared size — a transition to `Idle` plus a completion
notice on the Console Log (persistence assumed to succeed). -/
theorem C1_packet_flush (st : MW) (data : List Nat)
    (hr : st.fr.receiving = true) (hf : st.fr.fileOpen = true)
    (hlen : st.packet_bytes.length = st.packet_bytes_num)
    (hcond : st.packet_bytes_num + data.length = FILE_PACKET_SIZE ∨
      (st.fr.rx_bytes : Int) + ((st.packet_bytes_num + data.length : Nat) : Int)
        ≥ st.fr.file_size) :
    (handleNotification st data true).2.sent = ["FIL:ACK\n"] ∧
    (handleNotification st data true).2.stored = [st.packet_bytes ++ data] ∧
    (handleNotification st data true).1.packet_bytes = [] ∧
    (handleNotification st data true).1.packet_bytes_num = 0 ∧
    (((st.fr.rx_bytes : Int) + ((st.packet_bytes_num + data.length : Nat) : Int)
        ≥ st.fr.file_size) →
      (handleNotification st data true).1.fr.receiving = false ∧
      (handleNotification st data true).2.console = [CEntry.complete]) ∧
    (¬ ((st.fr.rx_bytes : Int) + ((st.packet_bytes_num + data.length : Nat) : Int)
        ≥ st.fr.file_size) →
      (handleNotification st data true).1.fr.receiving = true ∧
      (handleNotification st data true).2.console = []) := by
  have hlenZ : (st.packet_bytes.length : Int) = (st.packet_bytes_num : Int) := by
    exact_mod_cast hlen
  simp only [handleNotification, hr, if_true, handleReceiving,
    FileReceiver.handle_data, hf, Bool.and_self]
  rw [if_pos hcond]
  by_cases hd : st.fr.file_size ≤ (st.fr.rx_bytes : Int) +
      ((st.packet_bytes.length : Int) + (data.length : Int))
  · have hd2 : st.fr.file_size ≤ (st.fr.rx_bytes : Int) +
        ((st.packet_bytes_num : Int) + (data.length : Int)) := by omega
    simp [hd, hd2, FileReceiver.stop_receiving]
  · have hd2 : ¬ st.fr.file_size ≤ (st.fr.rx_bytes : Int) +
        ((st.packet_bytes_num : Int) + (data.length : Int)) := by omega
    simp [hd, hd2]

/-- Witness for C1 at a concrete input: a fresh 2048-byte transfer fed a
single 1024-byte chunk. -/
theorem C1_packet_flush_witness :
    (mkRecvMW 2048 0 [] false { active := false, remaining := 0 }).fr.receiving
      = true ∧
    (handleNotification
        (mkRecvMW 2048 0 [] false { active := false, remaining := 0 })
        (List.replicate 1024 7) true).2.sent = ["FIL:ACK\n"] :=
  ⟨by decide,
   (C1_packet_flush (mkRecvMW 2048 0 [] false { active := false, remaining := 0 })
      (List.replicate 1024 7) (by decide) (by decide) (by decide)
      (Or.inl (by decide))).1⟩

/-- C2: contrary to the claim, a completed idle-mode line containing the
marker whose size field does not parse (here `"Sending file: badsize\n"`)
raises an uncaught `ValueError` out of the notification handler: the line
is NOT appended to the Console Log, and while indeed no transfer session
is created, the failure is not the claimed non-fatal degrade-to-text. -/
theorem C2_malformed_directive_raises :
    (handleNotification initMW (strCodes ("Sending file: badsize\n")) true).2.raised
      = true ∧
    (handleNotification initMW (strCodes ("Sending file: badsize\n")) true).2.console
      = [] ∧
    (handleNotification initMW (strCodes ("Sending file: badsize\n")) true).1.fr.receiving
      = false ∧
    (handleNotification initMW (strCodes ("Sending file: badsize\n")) true).2.sent
      = [] := by decide

/-- Counterexample to C5: a Disconnect received mid-transfer leaves the
state machine in `Receiving` with the watchdog still running — the
TransferSession is not abandoned and the Watchdog is not disarmed. -/
theorem C5_disconnect_counterexample :
    (disconnect (mkRecvMW 2000 0 (List.replicate 500 7) true Watchdog.started)).1.fr.receiving
      = true ∧
    (disconnect (mkRecvMW 2000 0 (List.replicate 500 7) true Watchdog.started)).1.watchdog.active
      = true := by decide

/-- C5 amended: Disconnect only drops the transport client (and logs
through the gated console path); the file receiver, packet accumulator and
watchdog are untouched. Two consecutive Disconnects are idempotent: the
second is a no-op because the client is already gone. -/
theorem C5_disconnect_amended (st : MW) :
    (disconnect st).1.fr = st.fr ∧
    (disconnect st).1.watchdog = st.watchdog ∧
    (disconnect st).1.packet_bytes = st.packet_bytes ∧
    (disconnect st).1.packet_bytes_num = st.packet_bytes_num ∧
    (disconnect st).1.clientSome = false ∧
    (disconnect (disconnect st).1).1 = (disconnect st).1 := by
  by_cases h : st.clientSome <;> simp [disconnect, h]

/-- Counterexample to C8: two full packets of a transfer whose stores both
fail are still both answered with `FIL:ACK`, the failure is logged each
time, and the TransferSession remains open — the code does not abort on
persistence failure. -/
theorem C8_store_failure_counterexample :
    (runEvents (mkRecvMW 2048 0 [] false { active := false, remaining := 0 })
        [Event.chunk (List.replicate 1024 7) false,
         Event.chunk (List.replicate 1024 7) false]).2.sent =
      ["FIL:ACK\n", "FIL:ACK\n"] ∧
    (runEvents (mkRecvMW 2048 0 [] false { active := false, remaining := 0 })
        [Event.chunk (List.replicate 1024 7) false,
         Event.chunk (List.replicate 1024 7) false]).1.fr.receiving = true ∧
    (runEvents (mkRecvMW 2048 0 [] false { active := false, remaining := 0 })
        [Event.chunk (List.replicate 1024 7) false,
         Event.chunk (List.replicate 1024 7) false]).2.console =
      [CEntry.recvError, CEntry.recvError] := by decide

/-- C8 amended: when the store of a completed packet raises, the failure
is surfaced to the Console Log as the `File receive error` diagnostic, but
the TransferSession is NOT aborted: `receiving` stays set, the `FIL:ACK`
for the failing packet is still sent (it is scheduled before the store),
nothing reaches persistence, the packet accumulator is left uncleared and
the watchdog is not restarted. -/
theorem C8_store_failure_amended (st : MW) (data : List Nat)
    (hr : st.fr.receiving = true) (hf : st.fr.fileOpen = true)
    (hcond : st.packet_bytes_num + data.length = FILE_PACKET_SIZE ∨
      (st.fr.rx_bytes : Int) + ((st.packet_bytes_num + data.length : Nat) : Int)
        ≥ st.fr.file_size) :
    (handleNotification st data false).2.console = [CEntry.recvError] ∧
    (handleNotification st data false).2.sent = ["FIL:ACK\n"] ∧
    (handleNotification st data false).2.stored = [] ∧
    (handleNotification st data false).1.fr = st.fr ∧
    (handleNotification st data false).1.packet_bytes = st.packet_bytes ++ data ∧
    (handleNotification st data false).1.packet_bytes_num
      = st.packet_bytes_num + data.length ∧
    (handleNotification st data false).1.watchdog = st.watchdog := by
  simp only [handleNotification, hr, if_true, handleReceiving,
    FileReceiver.handle_data, hf, Bool.and_self]
  rw [if_pos hcond]
  simp

/-- Witness for C8 amended at a concrete input. -/
theorem C8_store_failure_amended_witness :
    (mkRecvMW 2048 0 [] false { active := false, remaining := 0 }).fr.receiving
      = true ∧
    (handleNotification
        (mkRecvMW 2048 0 [] false { active := false, remaining := 0 })
        (List.replicate 1024 7) false).2.console = [CEntry.recvError] :=
  ⟨by decide,
   (C8_store_failure_amended
      (mkRecvMW 2048 0 [] false { active := false, remaining := 0 })
      (List.replicate 1024 7) (by decide) (by decide)
      (Or.inl (by decide))).1⟩

/-- Counterexample to C6: an overrun chunk processed while `Receiving`
appends the overrun diagnostic — a console line that is neither the
started notice nor the completed notice. -/
theorem C6_console_counterexample :
    (mkRecvMW 2000 0 [] false { active := false, remaining := 0 }).fr.receiving
      = true ∧
    ((handleNotification (mkRecvMW 2000 0 [] false { active := false, remaining := 0 })
        (List.replicate 1030 7) true).2.console.all startedOrComplete) = false := by
  decide

/-- Successful stores never raise in `handle_data`. -/
theorem handle_data_true_ne_none (fr : FileReceiver) (data : List Nat) :
    fr.handle_data data true ≠ none := by
  unfold FileReceiver.handle_data
  split
  · split
    · simp only []
      split <;> simp
    · simp_all
  · simp

/-- C6 amended: while `Receiving`, the console lines appended by a chunk
event are among the completed notice, the overrun diagnostic and the
store-failure diagnostic; a watchdog expiry appends exactly the timeout
diagnostic; transport log lines through `_append_console` (and hence the
Disconnect logs) are suppressed; and an expiry outside a transfer appends
nothing. -/
theorem C6_console_amended (st : MW) (data : List Nat) (ok : Bool)
    (hr : st.fr.receiving = true) :
    (∀ e ∈ (handleNotification st data ok).2.console,
        e = CEntry.complete ∨ e = CEntry.overrun ∨ e = CEntry.recvError) ∧
    (on_rx_timeout st).2.console = [CEntry.timeout] ∧
    (∀ e, appendConsoleGated st e = []) ∧
    (disconnect st).2.console = [] ∧
    (∀ st2 : MW, st2.fr.receiving = false → (on_rx_timeout st2).2.console = []) := by
  refine ⟨?_, ?_, ?_, ?_, ?_⟩
  · intro e he
    simp only [handleNotification, hr, if_true, handleReceiving] at he
    split at he
    · split at he
      · split at he <;> simp_all
      · simp_all
    · split at he <;> simp_all [Out.empty]
  · simp [on_rx_timeout, hr]
  · intro e
    simp [appendConsoleGated, hr]
  · unfold disconnect
    split <;> simp [appendConsoleGated, hr, Out.empty]
  · intro st2 h2
    simp [on_rx_timeout, h2, Out.empty]

/-- Witness for C6 amended at a concrete mid-transfer state. -/
theorem C6_console_amended_witness :
    (mkRecvMW 2000 0 [] false { active := false, remaining := 0 }).fr.receiving
      = true ∧
    (on_rx_timeout (mkRecvMW 2000 0 [] false { active := false, remaining := 0 })).2.console
      = [CEntry.timeout] :=
  ⟨by decide,
   (C6_console_amended (mkRecvMW 2000 0 [] false { active := false, remaining := 0 })
      [] true (by decide)).2.1⟩

/-- Counterexample to C9: the watchdog is a repeating `QTimer`; armed once
and never reset, 400 ms while `Receiving` produce TWO expiries and two
`FIL:NACK`s — not one expiry per arm/reset cycle. -/
theorem C9_watchdog_counterexample :
    (runEvents (mkRecvMW 2000 0 [] false Watchdog.started)
        (List.replicate 400 Event.tick)).2.sent =
      ["FIL:NACK\n", "FIL:NACK\n"] := by decide

/-- C9 amended: a disarmed timer never fires; an expiry while `Receiving`
sends exactly one `FIL:NACK`, clears the packet accumulator and leaves the
TransferSession open; an expiry outside a transfer is a no-op; and the
timer is restarted by EVERY chunk processed while receiving (when the
store does not raise), not only by completed packets. -/
theorem C9_watchdog_amended (st : MW) (data : List Nat)
    (hr : st.fr.receiving = true) :
    (st.watchdog.active = false → tick1 st = (st, Out.empty)) ∧
    ((on_rx_timeout st).2.sent = ["FIL:NACK\n"] ∧
     (on_rx_timeout st).1.packet_bytes = [] ∧
     (on_rx_timeout st).1.packet_bytes_num = 0 ∧
     (on_rx_timeout st).1.fr = st.fr) ∧
    (∀ st2 : MW, st2.fr.receiving = false → on_rx_timeout st2 = (st2, Out.empty)) ∧
    (handleNotification st data true).1.watchdog = Watchdog.started := by
  refine ⟨?_, ?_, ?_, ?_⟩
  · intro h
    simp [tick1, h]
  · simp [on_rx_timeout, hr]
  · intro st2 h2
    simp [on_rx_timeout, h2]
  · simp only [handleNotification, hr, if_true, handleReceiving]
    split
    · rcases h2 : st.fr.handle_data (st.packet_bytes ++ data) true with _ | p
      · exact absurd h2 (handle_data_true_ne_none _ _)
      · simp [h2]
    · split <;> simp

/-- Witness for C9 amended at a concrete mid-transfer state. -/
theorem C9_watchdog_amended_witness :
    (mkRecvMW 2000 0 [] false { active := false, remaining := 0 }).fr.receiving
      = true ∧
    (handleNotification (mkRecvMW 2000 0 [] false { active := false, remaining := 0 })
        [7] true).1.watchdog = Watchdog.started :=
  ⟨by decide,
   (C9_watchdog_amended (mkRecvMW 2000 0 [] false { active := false, remaining := 0 })
      [7] (by decide)).2.2.2⟩

/-- Counterexample to C4: parsing a directive from `Idle` does open the
transfer, but the Watchdog is NOT armed by the transition (it is first
started only when a payload chunk later arrives). -/
theorem C4_directive_counterexample :
    (handleNotification initMW (strCodes ("Sending file: calib.bin,2048\n")) true).1.fr.receiving
      = true ∧
    (handleNotification initMW (strCodes ("Sending file: calib.bin,2048\n")) true).1.watchdog.active
      = false := by decide

/-- C4 amended: a successfully parsed directive while `Idle` opens the
TransferSession for the parsed name and size (`receiving` set, file open,
`rx_bytes` zeroed, sanitized filename) and logs the started notice
followed by the raw directive line — but it does NOT arm the Watchdog and
does NOT clear a stale packet accumulator: both are left exactly as they
were. -/
theorem C4_directive_amended (fr0 : FileReceiver) (pb : List Nat) (n : Nat)
    (w : Watchdog) (cs : Bool) (hr : fr0.receiving = false) :
    (handleNotification (mkIdleMW fr0 pb n w cs)
        (strCodes ("Sending file: calib.bin,2048\n")) true).1.fr
      = FileReceiver.start_receiving (strCodes ("calib.bin")) 2048 ∧
    (handleNotification (mkIdleMW fr0 pb n w cs)
        (strCodes ("Sending file: calib.bin,2048\n")) true).1.watchdog = w ∧
    (handleNotification (mkIdleMW fr0 pb n w cs)
        (strCodes ("Sending file: calib.bin,2048\n")) true).1.packet_bytes = pb ∧
    (handleNotification (mkIdleMW fr0 pb n w cs)
        (strCodes ("Sending file: calib.bin,2048\n")) true).1.packet_bytes_num = n ∧
    (handleNotification (mkIdleMW fr0 pb n w cs)
        (strCodes ("Sending file: calib.bin,2048\n")) true).1.last_line = [] ∧
    (handleNotification (mkIdleMW fr0 pb n w cs)
        (strCodes ("Sending file: calib.bin,2048\n")) true).2.console
      = [CEntry.started (strCodes ("calib.bin")) 2048,
         CEntry.line (strCodes ("Sending file: calib.bin,2048\n"))] := by
  have h : (mkIdleMW fr0 pb n w cs).fr.receiving = false := hr
  unfold handleNotification
  rw [h]
  exact ⟨rfl, rfl, rfl, rfl, rfl, rfl⟩

/-- Witness for C4 amended at the initial receiver state. -/
theorem C4_directive_amended_witness :
    initFR.receiving = false ∧
    (handleNotification (mkIdleMW initFR [] 0 { active := false, remaining := 0 } false)
        (strCodes ("Sending file: calib.bin,2048\n")) true).1.fr
      = FileReceiver.start_receiving (strCodes ("calib.bin")) 2048 :=
  ⟨by decide,
   (C4_directive_amended initFR [] 0 { active := false, remaining := 0 } false
      (by decide)).1⟩

/-- The idle branch never touches the packet accumulator or the
watchdog. -/
theorem handleIdle_skeleton (st : MW) (text : List Nat) :
    (handleIdle st text).1.packet_bytes = st.packet_bytes ∧
    (handleIdle st text).1.packet_bytes_num = st.packet_bytes_num ∧
    (handleIdle st text).1.watchdog = st.watchdog ∧
    (handleIdle st text).2.sent = [] ∧
    (handleIdle st text).2.stored = [] := by
  simp only [handleIdle]
  split
  · split <;> simp [Out.empty]
  · simp [Out.empty]

/-- The receiving branch keeps the packet byte counter equal to the packet
buffer length. -/
theorem handleReceiving_len (st : MW) (data : List Nat) (ok : Bool)
    (h : st.packet_bytes.length = st.packet_bytes_num) :
    (handleReceiving st data ok).1.packet_bytes.length
      = (handleReceiving st data ok).1.packet_bytes_num := by
  simp only [handleReceiving]
  split
  · split <;> simp [h]
  · split <;> simp [h]

/-- The timeout handler keeps the packet byte counter equal to the packet
buffer length. -/
theorem on_rx_timeout_len (st : MW)
    (h : st.packet_bytes.length = st.packet_bytes_num) :
    (on_rx_timeout st).1.packet_bytes.length
      = (on_rx_timeout st).1.packet_bytes_num := by
  unfold on_rx_timeout
  split <;> simp [h]

/-- C10: the counter `packet_bytes_num` always equals the length of
`packet_bytes`: it holds after initialization and is preserved by every
event — a chunk in either mode (with the store succeeding or raising), a
millisecond of watchdog time (including an expiry), and a disconnect. -/
theorem C10_packet_count_invariant :
    initMW.packet_bytes.length = initMW.packet_bytes_num ∧
    ∀ (st : MW) (ev : Event), st.packet_bytes.length = st.packet_bytes_num →
      (stepEvent st ev).1.packet_bytes.length
        = (stepEvent st ev).1.packet_bytes_num := by
  refine ⟨by decide, ?_⟩
  intro st ev h
  cases ev with
  | chunk d ok =>
      simp only [stepEvent, handleNotification]
      split
      · exact handleReceiving_len st d ok h
      · rw [(handleIdle_skeleton st d).1, (handleIdle_skeleton st d).2.1]
        exact h
  | tick =>
      simp only [stepEvent, tick1]
      split
      · split
        · exact on_rx_timeout_len _ h
        · simpa using h
      · simpa using h
  | disconnect =>
      simp only [stepEvent, disconnect]
      split <;> simpa using h

/-- Witness for C10's preservation component at a concrete state and
event. -/
theorem C10_packet_count_invariant_witness :
    (mkRecvMW 2000 0 [] false Watchdog.started).packet_bytes.length
      = (mkRecvMW 2000 0 [] false Watchdog.started).packet_bytes_num ∧
    (stepEvent (mkRecvMW 2000 0 [] false Watchdog.started)
        (Event.chunk [1, 2, 3] true)).1.packet_bytes.length
      = (stepEvent (mkRecvMW 2000 0 [] false Watchdog.started)
          (Event.chunk [1, 2, 3] true)).1.packet_bytes_num :=
  ⟨by decide,
   C10_packet_count_invariant.2 (mkRecvMW 2000 0 [] false Watchdog.started)
     (Event.chunk [1, 2, 3] true) (by decide)⟩

/-- A run stops immediately once the receiver leaves `Receiving`. -/
theorem runRecv_stops (st : MW) (l : List (List Nat))
    (h : st.fr.receiving = false) : runRecv st l = (st, Out.empty) := by
  cases l <;> simp [runRecv, h]

/-- The receiver state after a successful-store receiving step is either
untouched, stopped with the packet counted, or advanced by the packet. -/
theorem handleReceiving_true_fr_cases (st : MW) (data : List Nat) :
    (handleReceiving st data true).1.fr = st.fr ∨
    (handleReceiving st data true).1.fr =
      FileReceiver.stop_receiving
        { st.fr with rx_bytes := st.fr.rx_bytes + (st.packet_bytes ++ data).length } ∨
    (handleReceiving st data true).1.fr =
      { st.fr with rx_bytes := st.fr.rx_bytes + (st.packet_bytes ++ data).length } := by
  simp only [handleReceiving, FileReceiver.handle_data]
  split
  · split
    · rename_i fr' stores heq
      split at heq
      · split at heq
        · split at heq
          · cases heq; right; left; rfl
          · cases heq; right; right; rfl
        · cases heq
      · cases heq; left; rfl
    · left; rfl
  · split
    · left; rfl
    · left; rfl

/-- A receiving step with a successful store preserves "receiving implies
the file is open". -/
theorem handleReceiving_true_open (st : MW) (data : List Nat)
    (hopen : st.fr.receiving = true → st.fr.fileOpen = true) :
    (handleReceiving st data true).1.fr.receiving = true →
    (handleReceiving st data true).1.fr.fileOpen = true := by
  rcases handleReceiving_true_fr_cases st data with h | h | h <;> rw [h]
  · exact hopen
  · simp [FileReceiver.stop_receiving]
  · exact hopen

/-- Stores of one successful receiving step: nothing, or exactly one
packet whose length is `FILE_PACKET_SIZE` whenever the transfer is still
in progress afterwards (a flush that leaves the session open can only have
been triggered by the exact packet boundary). -/
theorem handleReceiving_true_stored (st : MW) (data : List Nat)
    (hr : st.fr.receiving = true) (hf : st.fr.fileOpen = true)
    (hlen : st.packet_bytes.length = st.packet_bytes_num) :
    (handleReceiving st data true).2.stored = [] ∨
    ∃ p, (handleReceiving st data true).2.stored = [p] ∧
      ((handleReceiving st data true).1.fr.receiving = true →
        p.length = FILE_PACKET_SIZE) := by
  simp only [handleReceiving, FileReceiver.handle_data, hr, hf,
    Bool.and_self, if_true]
  split
  · rename_i hcond
    split
    · rename_i fr' stores heq
      split at heq
      · cases heq
        right
        exact ⟨st.packet_bytes ++ data, rfl,
          by simp [FileReceiver.stop_receiving]⟩
      · rename_i hnotdone
        cases heq
        right
        refine ⟨st.packet_bytes ++ data, rfl, fun _ => ?_⟩
        have hlen2 : (st.packet_bytes ++ data).length
            = st.packet_bytes_num + data.length := by simp [hlen]
        rcases hcond with h1 | h1
        · rw [hlen2, h1]
        · exfalso
          apply hnotdone
          rw [hlen2]
          push_cast
          push_cast at h1
          omega
    · left; rfl
  · split
    · left; rfl
    · left; rfl

/-- Per-transfer packet-boundary invariant: starting from any consistent
mid-transfer state, every packet stored while the transfer is still open
afterwards has length exactly `FILE_PACKET_SIZE`, and over the whole run
every stored packet except possibly the last does. -/
theorem runRecv_packet_boundary (chunks : List (List Nat)) (st : MW)
    (hlen : st.packet_bytes.length = st.packet_bytes_num)
    (hopen : st.fr.receiving = true → st.fr.fileOpen = true) :
    ((runRecv st chunks).1.fr.receiving = true →
      ∀ p ∈ (runRecv st chunks).2.stored, p.length = FILE_PACKET_SIZE) ∧
    ∀ p ∈ (runRecv st chunks).2.stored.dropLast,
      p.length = FILE_PACKET_SIZE := by
  induction chunks generalizing st with
  | nil => simp [runRecv, Out.empty]
  | cons c rest ih =>
      by_cases hst : st.fr.receiving = true
      · have hf : st.fr.fileOpen = true := hopen hst
        have hdisp : handleNotification st c true = handleReceiving st c true := by
          simp [handleNotification, hst]
        have hlen' : (handleReceiving st c true).1.packet_bytes.length
            = (handleReceiving st c true).1.packet_bytes_num :=
          handleReceiving_len st c true hlen
        have hopen' := handleReceiving_true_open st c hopen
        have ihr := ih (handleReceiving st c true).1 hlen' hopen'
        have hstored := handleReceiving_true_stored st c hst hf hlen
        have hrun : runRecv st (c :: rest)
            = ((runRecv (handleReceiving st c true).1 rest).1,
               Out.app (handleReceiving st c true).2
                 (runRecv (handleReceiving st c true).1 rest).2) := by
          simp [runRecv, hst, hdisp]
        rw [hrun]
        constructor
        · intro hfin p hp
          cases hmid : (handleReceiving st c true).1.fr.receiving with
          | false =>
              have hstop := runRecv_stops (handleReceiving st c true).1 rest hmid
              rw [hstop] at hfin
              rw [hmid] at hfin
              exact absurd hfin (by simp)
          | true =>
              simp only [Out.app, List.mem_append] at hp
              rcases hp with hp | hp
              · rcases hstored with h0 | ⟨q, hq, hql⟩
                · rw [h0] at hp; simp at hp
                · rw [hq] at hp
                  simp at hp
                  rw [hp]
                  exact hql hmid
              · exact (ihr.1 hfin) p hp
        · intro p hp
          simp only [Out.app] at hp
          rcases hstored with h0 | ⟨q, hq, hql⟩
          · rw [h0] at hp
            simp only [List.nil_append] at hp
            exact ihr.2 p hp
          · rw [hq] at hp
            cases hs2 : (runRecv (handleReceiving st c true).1 rest).2.stored with
            | nil =>
                rw [hs2] at hp
                simp at hp
            | cons b t =>
                have hmid : (handleReceiving st c true).1.fr.receiving = true := by
                  cases hm : (handleReceiving st c true).1.fr.receiving with
                  | false =>
                      have := runRecv_stops (handleReceiving st c true).1 rest hm
                      rw [this] at hs2
                      simp [Out.empty] at hs2
                  | true => rfl
                rw [hs2] at hp
                rw [show ([q] ++ b :: t : List (List Nat)) = q :: b :: t from rfl] at hp
                rw [List.dropLast_cons₂] at hp
                rcases List.mem_cons.mp hp with hp1 | hp2
                · rw [hp1]; exact hql hmid
                · refine ihr.2 p ?_
                  rw [hs2]
                  exact hp2
      · have hstF : st.fr.receiving = false := by
          cases h : st.fr.receiving
          · rfl
          · exact absurd h hst
        rw [runRecv_stops st (c :: rest) hstF]
        simp [Out.empty]

/-- Counterexample to C3: a transfer declaring 1500 bytes that is
delivered as a single 1500-byte chunk produces ONE `store` call of 1500
bytes and ONE `FIL:ACK` — not one call of 1024 bytes plus one of 476
bytes with two ACKs as the claim states. The whole accumulated buffer is
flushed at the size boundary regardless of `PACKET_SIZE`. -/
theorem C3_packet_boundary_counterexample :
    (runRecv (mkRecvMW 1500 0 [] false { active := false, remaining := 0 })
        [List.replicate 1500 7]).2.stored.map List.length = [1500] ∧
    (runRecv (mkRecvMW 1500 0 [] false { active := false, remaining := 0 })
        [List.replicate 1500 7]).2.sent = ["FIL:ACK\n"] ∧
    ¬ ((runRecv (mkRecvMW 1500 0 [] false { active := false, remaining := 0 })
        [List.replicate 1500 7]).2.stored.map List.length = [1024, 476]) ∧
    (runRecv (mkRecvMW 1500 0 [] false { active := false, remaining := 0 })
        [List.replicate 1500 7]).1.fr.receiving = false := by decide

/-- C3 amended: over any transfer run, every packet passed to `store`
except possibly the last has length exactly `FILE_PACKET_SIZE` (any flush
that leaves the session open was triggered by the exact packet boundary),
but the LAST packet's length is whatever the accumulator holds when
`bytes_received + packet_bytes_count` first reaches the declared size —
equal to `declared_size mod PACKET_SIZE` only when chunk boundaries align
with packet boundaries. In particular a `declared_size = 1500` transfer
delivered as a single 1500-byte chunk yields one `store` call of all 1500
bytes and a single `FIL:ACK`. -/
theorem C3_packet_boundary_amended (chunks : List (List Nat)) (st : MW)
    (hlen : st.packet_bytes.length = st.packet_bytes_num)
    (hopen : st.fr.receiving = true → st.fr.fileOpen = true) :
    (∀ p ∈ (runRecv st chunks).2.stored.dropLast,
        p.length = FILE_PACKET_SIZE) ∧
    ((runRecv st chunks).1.fr.receiving = true →
      ∀ p ∈ (runRecv st chunks).2.stored, p.length = FILE_PACKET_SIZE) ∧
    (runRecv (mkRecvMW 1500 0 [] false { active := false, remaining := 0 })
        [List.replicate 1500 7]).2.stored.map List.length = [1500] ∧
    (runRecv (mkRecvMW 1500 0 [] false { active := false, remaining := 0 })
        [List.replicate 1500 7]).2.sent = ["FIL:ACK\n"] :=
  ⟨(runRecv_packet_boundary chunks st hlen hopen).2,
   (runRecv_packet_boundary chunks st hlen hopen).1,
   by decide, by decide⟩

/-- Witness for C3 amended: a 2048-byte transfer delivered as two aligned
1024-byte chunks. -/
theorem C3_packet_boundary_amended_witness :
    (mkRecvMW 2048 0 [] false { active := false, remaining := 0 }).packet_bytes.length
      = (mkRecvMW 2048 0 [] false { active := false, remaining := 0 }).packet_bytes_num ∧
    ∀ p ∈ (runRecv (mkRecvMW 2048 0 [] false { active := false, remaining := 0 })
        [List.replicate 1024 7, List.replicate 1024 9]).2.stored.dropLast,
      p.length = FILE_PACKET_SIZE :=
  ⟨by decide,
   (C3_packet_boundary_amended
      [List.replicate 1024 7, List.replicate 1024 9]
      (mkRecvMW 2048 0 [] false { active := false, remaining := 0 })
      (by decide) (by decide)).1⟩

/-- A newline-free accumulator can be replayed in front of the input. -/
theorem nlSplitGo_shift : ∀ (acc s : List Nat), 10 ∉ acc →
    nlSplitGo [] (acc.reverse ++ s) = nlSplitGo acc s := by
  intro acc
  induction acc with
  | nil => intro s _; simp
  | cons a t ih =>
      intro s h
      have ha : a ≠ 10 := fun he => h (by rw [he]; exact List.mem_cons_self _ _)
      have ht : 10 ∉ t := fun hm => h (List.mem_cons_of_mem _ hm)
      rw [List.reverse_cons, List.append_assoc,
        show ([a] ++ s : List Nat) = a :: s from rfl, ih (a :: s) ht]
      simp [nlSplitGo, ha]

/-- Splitting a concatenation: the lines of `a` come first, then the lines
of the leftover tail of `a` glued to `b`. -/
theorem nlSplitGo_append : ∀ (a acc b : List Nat), 10 ∉ acc →
    nlSplitGo acc (a ++ b)
      = ((nlSplitGo acc a).1
           ++ (nlSplitGo [] ((nlSplitGo acc a).2 ++ b)).1,
         (nlSplitGo [] ((nlSplitGo acc a).2 ++ b)).2) := by
  intro a
  induction a with
  | nil =>
      intro acc b h
      rw [List.nil_append]
      show nlSplitGo acc b
        = ((nlSplitGo acc []).1
             ++ (nlSplitGo [] ((nlSplitGo acc []).2 ++ b)).1,
           (nlSplitGo [] ((nlSplitGo acc []).2 ++ b)).2)
      rw [show nlSplitGo acc [] = ([], acc.reverse) from rfl]
      rw [nlSplitGo_shift acc b h]
      simp
  | cons c a' ih =>
      intro acc b h
      by_cases hc : c = 10
      · subst hc
        rw [List.cons_append]
        simp only [nlSplitGo, if_pos rfl]
        rw [ih [] b (by simp)]
        simp
      · rw [List.cons_append]
        simp only [nlSplitGo, if_neg hc]
        exact ih (c :: acc) b (by
          intro hm
          rcases List.mem_cons.mp hm with h1 | h1
          · exact hc h1.symm
          · exact h h1)

/-- No characters are lost by `nlSplitGo`: the lines and the tail
recompose the accumulator and the input. -/
theorem nlSplitGo_join : ∀ (s acc : List Nat),
    (nlSplitGo acc s).1.flatten ++ (nlSplitGo acc s).2 = acc.reverse ++ s := by
  intro s
  induction s with
  | nil => intro acc; simp [nlSplitGo]
  | cons c rest ih =>
      intro acc
      by_cases hc : c = 10
      · subst hc
        simp [nlSplitGo, ih, List.append_assoc]
      · simp [nlSplitGo, hc, ih]

/-- Newline-free input yields no lines and survives as the tail. -/
theorem nlSplitGo_no10 : ∀ (s acc : List Nat), 10 ∉ s →
    nlSplitGo acc s = ([], acc.reverse ++ s) := by
  intro s
  induction s with
  | nil => intro acc _; simp [nlSplitGo]
  | cons c rest ih =>
      intro acc h
      have hc : c ≠ 10 := fun he => h (by rw [he]; exact List.mem_cons_self _ _)
      simp only [nlSplitGo, if_neg hc]
      rw [ih (c :: acc) (fun hm => h (List.mem_cons_of_mem _ hm))]
      simp

/-- The tail never contains a newline. -/
theorem nlSplitGo_tail_no10 : ∀ (s acc : List Nat), 10 ∉ acc →
    10 ∉ (nlSplitGo acc s).2 := by
  intro s
  induction s with
  | nil =>
      intro acc h
      simpa [nlSplitGo] using h
  | cons c rest ih =>
      intro acc h
      by_cases hc : c = 10
      · subst hc
        simp only [nlSplitGo, if_pos rfl]
        exact ih [] (by simp)
      · simp only [nlSplitGo, if_neg hc]
        exact ih (c :: acc) (by
          intro hm
          rcases List.mem_cons.mp hm with h1 | h1
          · exact hc h1.symm
          · exact h h1)

/-- Every produced line is newline-terminated. -/
theorem nlSplitGo_lines_end : ∀ (s acc p : List Nat),
    p ∈ (nlSplitGo acc s).1 → lastEndsNl p = true := by
  intro s
  induction s with
  | nil => intro acc p hp; simp [nlSplitGo] at hp
  | cons c rest ih =>
      intro acc p hp
      by_cases hc : c = 10
      · subst hc
        simp only [nlSplitGo, if_pos rfl] at hp
        rcases List.mem_cons.mp hp with h1 | h1
        · rw [h1]
          unfold lastEndsNl
          rw [List.getLast?_concat]
          rfl
        · exact ih [] p h1
      · simp only [nlSplitGo, if_neg hc] at hp
        exact ih (c :: acc) p hp

/-- An empty tail means the whole input was empty (with an empty
accumulator) or the input ends in a newline. -/
theorem nlSplitGo_tail_empty : ∀ (s acc : List Nat),
    (nlSplitGo acc s).2 = [] →
    (acc = [] ∧ s = []) ∨ s.getLast? = some 10 := by
  intro s
  induction s with
  | nil =>
      intro acc h
      left
      exact ⟨by simpa [nlSplitGo] using h, rfl⟩
  | cons c rest ih =>
      intro acc h
      by_cases hc : c = 10
      · subst hc
        simp only [nlSplitGo, if_pos rfl] at h
        rcases ih [] h with ⟨_, hrest⟩ | hlast
        · right; rw [hrest]; rfl
        · right
          cases rest with
          | nil => simp at hlast
          | cons r t => rw [List.getLast?_cons_cons]; exact hlast
      · simp only [nlSplitGo, if_neg hc] at h
        rcases ih (c :: acc) h with ⟨habs, _⟩ | hlast
        · exact absurd habs (by simp)
        · right
          cases rest with
          | nil => simp at hlast
          | cons r t => rw [List.getLast?_cons_cons]; exact hlast

/-- Characters of a produced line come from the input. -/
theorem nlSplit_line_subset (s p : List Nat) (hp : p ∈ (nlSplit s).1) :
    ∀ x ∈ p, x ∈ s := by
  intro x hx
  have hj : x ∈ (nlSplit s).1.flatten := List.mem_flatten.mpr ⟨p, hp, hx⟩
  have h3 := nlSplitGo_join s []
  simp only [List.reverse_nil, List.nil_append] at h3
  exact h3 ▸ List.mem_append_left _ hj

/-- Characters of the tail come from the input. -/
theorem nlSplit_tail_subset (s : List Nat) :
    ∀ x ∈ (nlSplit s).2, x ∈ s := by
  intro x hx
  have h3 := nlSplitGo_join s []
  simp only [List.reverse_nil, List.nil_append] at h3
  exact h3 ▸ List.mem_append_right _ hx


/-- A successful prefix test puts every pattern character in the text. -/
theorem extFirst_mem : ∀ (pat s : List Nat), extFirst pat s = true →
    ∀ x ∈ pat, x ∈ s := by
  intro pat
  induction pat with
  | nil => intro s _ x hx; simp at hx
  | cons a pa ih =>
      intro s h x hx
      cases s with
      | nil => simp [extFirst] at h
      | cons b pb =>
          simp only [extFirst, Bool.and_eq_true, decide_eq_true_eq] at h
          rcases List.mem_cons.mp hx with h1 | h1
          · rw [h1, h.1]; exact List.mem_cons_self _ _
          · exact List.mem_cons_of_mem _ (ih pb h.2 x h1)

/-- A line without a colon cannot contain the control sentinel. -/
theorem hasSubstr_marker_58 : ∀ (s : List Nat), 58 ∉ s →
    hasSubstr markerC s = false := by
  intro s
  induction s with
  | nil => decide
  | cons c rest ih =>
      intro h
      simp only [hasSubstr, Bool.or_eq_false_iff]
      constructor
      · cases hp : extFirst markerC (c :: rest) with
        | false => rfl
        | true =>
            exact absurd (extFirst_mem markerC (c :: rest) hp 58 (by decide)) h
      · exact ih (fun hm => h (List.mem_cons_of_mem _ hm))

/-- The line loop on colon-free newline-terminated lines: every line is
appended verbatim, nothing else changes. -/
theorem idleLoop_all_terminated : ∀ (lines : List (List Nat))
    (fr : FileReceiver) (ll : List Nat),
    (∀ t ∈ lines, 58 ∉ t ∧ lastEndsNl t = true) →
    idleLoop fr ll lines = (fr, ll, lines.map CEntry.line, false) := by
  intro lines
  induction lines with
  | nil => intro fr ll _; rfl
  | cons t rest ih =>
      intro fr ll h
      have ht := h t (List.mem_cons_self _ _)
      have hrest := fun x hx => h x (List.mem_cons_of_mem _ hx)
      simp only [idleLoop, hasSubstr_marker_58 t ht.1, Bool.false_and,
        Bool.false_eq_true, if_false, ht.2, if_true]
      rw [ih fr ll hrest]
      simp

/-- The line loop on colon-free lines ending with one unterminated tail:
the terminated lines are appended and the tail becomes the new
`last_line`. -/
theorem idleLoop_with_tail : ∀ (lines : List (List Nat))
    (u : List Nat) (fr : FileReceiver) (ll : List Nat),
    (∀ t ∈ lines, 58 ∉ t ∧ lastEndsNl t = true) →
    58 ∉ u → lastEndsNl u = false →
    idleLoop fr ll (lines ++ [u]) = (fr, u, lines.map CEntry.line, false) := by
  intro lines
  induction lines with
  | nil =>
      intro u fr ll _ hu hun
      simp only [List.nil_append, idleLoop, hasSubstr_marker_58 u hu,
        Bool.false_and, Bool.false_eq_true, if_false, hun, List.map_nil]
  | cons t rest ih =>
      intro u fr ll h hu hun
      have ht := h t (List.mem_cons_self _ _)
      have hrest := fun x hx => h x (List.mem_cons_of_mem _ hx)
      simp only [List.cons_append, idleLoop, hasSubstr_marker_58 t ht.1,
        Bool.false_and, Bool.false_eq_true, if_false, ht.2, if_true,
        List.append_eq]
      rw [ih u fr ll hrest hu hun]
      simp

/-- On text whose only line-break character is `\n`, Python `splitlines`
agrees with the reference splitter: all terminated lines, then the
unterminated tail when nonempty. -/
theorem splitlinesGo_eq_nl : ∀ (s acc : List Nat),
    (∀ c ∈ s, isBreakCh c = true → c = 10) →
    splitlinesGo acc s
      = (nlSplitGo acc s).1
        ++ (if (nlSplitGo acc s).2.isEmpty then []
            else [(nlSplitGo acc s).2]) := by
  intro s
  induction s with
  | nil =>
      intro acc _
      cases acc <;> simp [splitlinesGo, nlSplitGo]
  | cons c s' ih =>
      intro acc hs
      cases s' with
      | nil =>
          by_cases hbr : isBreakCh c = true
          · have hc10 : c = 10 := hs c (List.mem_cons_self _ _) hbr
            subst hc10
            simp [splitlinesGo, nlSplitGo, isBreakCh, pyBreaks]
          · have hc10 : c ≠ 10 := by
              intro he; subst he; exact hbr (by decide)
            simp [splitlinesGo, nlSplitGo, hbr, hc10]
      | cons c2 rest =>
          have hs' : ∀ x ∈ c2 :: rest, isBreakCh x = true → x = 10 :=
            fun x hx => hs x (List.mem_cons_of_mem _ hx)
          by_cases hbr : isBreakCh c = true
          · have hc10 : c = 10 := hs c (List.mem_cons_self _ _) hbr
            subst hc10
            rw [show splitlinesGo acc (10 :: c2 :: rest)
                = (acc.reverse ++ [10]) :: splitlinesGo [] (c2 :: rest) from by
              simp [splitlinesGo, isBreakCh, pyBreaks]]
            rw [show nlSplitGo acc (10 :: c2 :: rest)
                = ((acc.reverse ++ [10]) :: (nlSplitGo [] (c2 :: rest)).1,
                   (nlSplitGo [] (c2 :: rest)).2) from by simp [nlSplitGo]]
            rw [ih [] hs']
            simp
          · have hc10 : c ≠ 10 := by
              intro he; subst he; exact hbr (by decide)
            have h13 : c ≠ 13 := by
              intro he; subst he; exact hbr (by decide)
            rw [show splitlinesGo acc (c :: c2 :: rest)
                = splitlinesGo (c :: acc) (c2 :: rest) from by
              simp [splitlinesGo, h13, hbr]]
            rw [show nlSplitGo acc (c :: c2 :: rest)
                = nlSplitGo (c :: acc) (c2 :: rest) from by
              simp [nlSplitGo, hc10]]
            exact ih (c :: acc) hs'

/-- Idle-branch normal form on safe text: when the pending `last_line` has
no newline, and both it and the chunk are colon-free with `\n` as the only
break character, the handler appends exactly the terminated lines of
`last_line ++ text` to the console and retains the unterminated tail as
the new `last_line`; nothing else changes and nothing is raised. -/
theorem handleIdle_nf (st : MW) (text : List Nat)
    (hsafe : ∀ c ∈ st.last_line ++ text,
      (isBreakCh c = true → c = 10) ∧ c ≠ 58) :
    handleIdle st text
      = ({ st with last_line := (nlSplit (st.last_line ++ text)).2 },
         { sent := [], stored := [],
           console := ((nlSplit (st.last_line ++ text)).1).map CEntry.line,
           raised := false }) := by
  have hbrk : ∀ c ∈ st.last_line ++ text, isBreakCh c = true → c = 10 :=
    fun c hc => (hsafe c hc).1
  have h58 : 58 ∉ st.last_line ++ text := fun hm => (hsafe 58 hm).2 rfl
  by_cases hc10 : (st.last_line ++ text).contains 10 = true
  · have hT58 : ∀ t ∈ (nlSplit (st.last_line ++ text)).1, 58 ∉ t :=
      fun t ht hm => h58 (nlSplit_line_subset _ t ht 58 hm)
    have hTend : ∀ t ∈ (nlSplit (st.last_line ++ text)).1,
        58 ∉ t ∧ lastEndsNl t = true :=
      fun t ht => ⟨hT58 t ht, nlSplitGo_lines_end _ [] t ht⟩
    have hU58 : 58 ∉ (nlSplit (st.last_line ++ text)).2 :=
      fun hm => h58 (nlSplit_tail_subset _ 58 hm)
    have hU10 : 10 ∉ (nlSplit (st.last_line ++ text)).2 :=
      nlSplitGo_tail_no10 _ [] (by simp)
    have hbridge := splitlinesGo_eq_nl (st.last_line ++ text) [] hbrk
    by_cases hU : (nlSplit (st.last_line ++ text)).2 = []
    · -- all lines terminated; the buffer ends in a newline and is cleared
      have hlastNl : lastEndsNl (st.last_line ++ text) = true := by
        rcases nlSplitGo_tail_empty (st.last_line ++ text) [] hU with
          ⟨_, hempty⟩ | hlast
        · rw [hempty] at hc10; simp at hc10
        · unfold lastEndsNl
          rw [hlast]
          rfl
      have hlines : splitlinesK (st.last_line ++ text)
          = (nlSplit (st.last_line ++ text)).1 := by
        rw [show splitlinesK (st.last_line ++ text)
            = splitlinesGo [] (st.last_line ++ text) from rfl, hbridge]
        simp only [nlSplit] at hU
        simp [hU]
        rfl
      simp only [handleIdle, hc10, if_true, hlines,
        idleLoop_all_terminated _ st.fr (st.last_line ++ text) hTend]
      rw [hU]
      simp [hlastNl]
    · -- a trailing unterminated segment becomes the new buffer
      have hUend : lastEndsNl (nlSplit (st.last_line ++ text)).2 = false := by
        unfold lastEndsNl
        cases hL : (nlSplit (st.last_line ++ text)).2.getLast? with
        | none => rfl
        | some a =>
            have ha : a ∈ (nlSplit (st.last_line ++ text)).2 :=
              List.mem_of_mem_getLast? hL
            have ha10 : a ≠ 10 := fun he => hU10 (he ▸ ha)
            simp [ha10]
      have hlines : splitlinesK (st.last_line ++ text)
          = (nlSplit (st.last_line ++ text)).1
            ++ [(nlSplit (st.last_line ++ text)).2] := by
        rw [show splitlinesK (st.last_line ++ text)
            = splitlinesGo [] (st.last_line ++ text) from rfl, hbridge]
        simp only [nlSplit] at hU
        simp [List.isEmpty_iff, hU]
        rfl
      simp only [handleIdle, hc10, if_true, hlines,
        idleLoop_with_tail _ _ st.fr (st.last_line ++ text) hTend hU58 hUend]
      simp [hUend]
  · have hmem : 10 ∉ st.last_line ++ text := by
      intro hm
      exact hc10 (by simpa [List.contains] using hm)
    have hf : (st.last_line ++ text).contains 10 = false := by
      revert hc10
      cases (st.last_line ++ text).contains 10 <;> simp
    rw [show handleIdle st text
        = ({ st with last_line := st.last_line ++ text }, Out.empty) from by
      simp only [handleIdle, hf, Bool.false_eq_true, if_false]]
    rw [show nlSplit (st.last_line ++ text)
        = ([], st.last_line ++ text) from by
      rw [show nlSplit (st.last_line ++ text)
          = nlSplitGo [] (st.last_line ++ text) from rfl,
        nlSplitGo_no10 _ [] hmem]
      simp]
    simp [Out.empty]

/-- Mapping `CEntry.line` then taking `emittedLines` is the identity. -/
theorem emittedLines_map_line : ∀ L : List (List Nat),
    emittedLines (L.map CEntry.line) = L := by
  intro L
  induction L with
  | nil => rfl
  | cons a t ih => simp [emittedLines, ih]

/-- Multi-chunk idle normal form: feeding safe chunks (colon-free, `\n`
the only break character) while idle emits exactly the terminated lines of
the pending buffer followed by the concatenation, and retains the
unterminated tail as the new buffer. -/
theorem runIdle_nf : ∀ (chunks : List (List Nat)) (st : MW),
    st.fr.receiving = false →
    10 ∉ st.last_line →
    (∀ c ∈ st.last_line ++ chunks.flatten,
      (isBreakCh c = true → c = 10) ∧ c ≠ 58) →
    runEvents st (chunks.map (fun c => Event.chunk c true))
      = ({ st with last_line :=
             (nlSplit (st.last_line ++ chunks.flatten)).2 },
         { sent := [], stored := [],
           console := ((nlSplit (st.last_line ++ chunks.flatten)).1).map
             CEntry.line,
           raised := false }) := by
  intro chunks
  induction chunks with
  | nil =>
      intro st hr hll10 _
      rw [show nlSplit (st.last_line ++ List.flatten [])
          = ([], st.last_line) from by
        rw [show nlSplit (st.last_line ++ List.flatten [])
            = nlSplitGo [] (st.last_line ++ List.flatten []) from rfl,
          nlSplitGo_no10 _ [] (by simpa using hll10)]
        simp]
      simp [runEvents, Out.empty]
  | cons c rest ih =>
      intro st hr hll10 hsafe
      have hsafe1 : ∀ x ∈ st.last_line ++ c,
          (isBreakCh x = true → x = 10) ∧ x ≠ 58 := by
        intro x hx
        apply hsafe
        rcases List.mem_append.mp hx with h1 | h1
        · exact List.mem_append_left _ h1
        · refine List.mem_append_right _ ?_
          rw [List.flatten_cons]
          exact List.mem_append_left _ h1
      have hnf := handleIdle_nf st c hsafe1
      have hstep : stepEvent st (Event.chunk c true) = handleIdle st c := by
        simp [stepEvent, handleNotification, hr]
      have hU1no10 : 10 ∉ (nlSplit (st.last_line ++ c)).2 :=
        nlSplitGo_tail_no10 _ [] (by simp)
      have hU1sub := nlSplit_tail_subset (st.last_line ++ c)
      have hsafe2 : ∀ x ∈ (nlSplit (st.last_line ++ c)).2 ++ rest.flatten,
          (isBreakCh x = true → x = 10) ∧ x ≠ 58 := by
        intro x hx
        rcases List.mem_append.mp hx with h1 | h1
        · exact hsafe1 x (hU1sub x h1)
        · apply hsafe
          refine List.mem_append_right _ ?_
          rw [List.flatten_cons]
          exact List.mem_append_right _ h1
      have hihyp := ih { st with last_line := (nlSplit (st.last_line ++ c)).2 }
        hr hU1no10 hsafe2
      have happ : nlSplit ((st.last_line ++ c) ++ rest.flatten)
          = ((nlSplit (st.last_line ++ c)).1
               ++ (nlSplit ((nlSplit (st.last_line ++ c)).2
                     ++ rest.flatten)).1,
             (nlSplit ((nlSplit (st.last_line ++ c)).2
                   ++ rest.flatten)).2) :=
        nlSplitGo_append (st.last_line ++ c) [] rest.flatten (by simp)
      rw [show st.last_line ++ (c :: rest).flatten
          = (st.last_line ++ c) ++ rest.flatten from by
        rw [List.flatten_cons, List.append_assoc]]
      rw [happ]
      simp only [List.map_cons, runEvents, hstep, hnf, hihyp]
      simp [Out.app, List.map_append]

/-- Counterexample to C7: the chunk `"a\rb\rc\n"` (ASCII; `\r` is a
`splitlines` break but not a newline) fed to the idle pipeline emits only
`"c\n"` and retains `"b\r"` as the buffer — the bytes `"a\r"` are dropped
outright, refuting "no bytes are ever dropped". -/
theorem C7_line_reassembly_counterexample :
    emittedLines (handleNotification initMW (strCodes ("a\rb\rc\n")) true).2.console
      = [strCodes ("c\n")] ∧
    (handleNotification initMW (strCodes ("a\rb\rc\n")) true).1.last_line
      = strCodes ("b\r") ∧
    ¬ ((emittedLines (handleNotification initMW (strCodes ("a\rb\rc\n")) true).2.console).flatten
        ++ (handleNotification initMW (strCodes ("a\rb\rc\n")) true).1.last_line
        = strCodes ("a\rb\rc\n")) := by decide

/-- C7 amended: for byte sequences that contain no colon and in which the
only `splitlines` break character is `\n` (in particular ASCII text, where
per-chunk decoding is the identity), the idle pipeline is
chunk-boundary-independent — any partition into chunks emits the same
completed lines (each with its terminating newline) as one single chunk,
no bytes are dropped, and the trailing unterminated segment is retained as
the new line buffer. (With `\r` or another non-`\n` break character in the
text, interior `\r`-terminated segments are overwritten and lost, as the
counterexample shows.) -/
theorem C7_line_reassembly_amended (chunks : List (List Nat))
    (hsafe : ∀ b ∈ chunks.flatten, (isBreakCh b = true → b = 10) ∧ b ≠ 58) :
    emittedLines (runEvents initMW
        (chunks.map (fun c => Event.chunk c true))).2.console
      = emittedLines (runEvents initMW
          [Event.chunk chunks.flatten true]).2.console ∧
    (runEvents initMW (chunks.map (fun c => Event.chunk c true))).1.last_line
      = (runEvents initMW [Event.chunk chunks.flatten true]).1.last_line ∧
    (emittedLines (runEvents initMW
        (chunks.map (fun c => Event.chunk c true))).2.console).flatten
      ++ (runEvents initMW
          (chunks.map (fun c => Event.chunk c true))).1.last_line
      = chunks.flatten := by
  have h1 := runIdle_nf chunks initMW rfl (by simp [initMW])
    (by simpa [initMW] using hsafe)
  have h2 := runIdle_nf [chunks.flatten] initMW rfl (by simp [initMW])
    (by simpa [initMW] using hsafe)
  rw [show ([chunks.flatten].map (fun c => Event.chunk c true))
      = [Event.chunk chunks.flatten true] from rfl] at h2
  rw [h1, h2]
  have hflat : ([chunks.flatten] : List (List Nat)).flatten
      = chunks.flatten := by simp
  rw [hflat]
  refine ⟨rfl, rfl, ?_⟩
  simp only [emittedLines_map_line]
  have hjoin := nlSplitGo_join (initMW.last_line ++ chunks.flatten) []
  simpa [initMW] using hjoin

/-- Witness for C7 amended at a concrete two-chunk split of
`"ab\ncd\nef"`. -/
theorem C7_line_reassembly_amended_witness :
    (∀ b ∈ ([strCodes ("ab\ncd"), strCodes ("ef")] : List (List Nat)).flatten,
      (isBreakCh b = true → b = 10) ∧ b ≠ 58) ∧
    emittedLines (runEvents initMW
        ([strCodes ("ab\ncd"), strCodes ("ef")].map
          (fun c => Event.chunk c true))).2.console
      = emittedLines (runEvents initMW
          [Event.chunk ([strCodes ("ab\ncd"), strCodes ("ef")] : List (List Nat)).flatten
            true]).2.console :=
  ⟨by decide,
   (C7_line_reassembly_amended [strCodes ("ab\ncd"), strCodes ("ef")]
      (by decide)).1⟩
